import Mathlib

/-!
Shallow embedding of `main.go` from cockroachlabs/example-app-go-gorm.

The program is a funds-transfer demo over an `accounts` table accessed
through GORM.  We model the table state as a list of `Account` rows and
translate each Go function into a pure Lean function over that state:

* `DB.first` embeds `db.First(&acct, id)` (lookup by primary key);
* `DB.firstOrZero` embeds the way `transferFunds` actually uses `First`:
  the returned error is discarded, so a missing row leaves the out
  parameter at its zero value `Account{ID: 0, Balance: 0}`;
* `DB.save` embeds GORM v2 `db.Save(&acct)`: an UPDATE of the row with
  the same primary key, falling back to a CREATE when no row was
  affected (GORM's `Save` issues `Create` when the update touches zero
  rows or the primary key is zero);
* `transferFunds`, `insertRows`, `deleteAccounts` are direct
  translations of the functions of the same names in `main.go`.

UUIDs are modelled as naturals, with `0` playing the role of the zero
`uuid.UUID`.  Balances are Go `int`; the quantities in this program are
tiny compared to 2^63, so they are modelled as `Int` (no claim concerns
overflow).
-/

/-- Row of the `accounts` table: `Account{ID uuid.UUID; Balance int}`.
UUIDs are modelled as naturals; `0` is the zero UUID. -/
structure Account where
  ID : Nat
  Balance : Int
deriving Repr, DecidableEq

/-- The state of the `accounts` table, as a list of rows. -/
abbrev DB := List Account

/-- Embeds `db.First(&acct, id)`: the first row whose primary key equals
`id`, or `none` (GORM `ErrRecordNotFound`). -/
def DB.first (db : DB) (id : Nat) : Option Account :=
  List.find? (fun a => a.ID == id) db

/-- Zero value of the Go struct `Account`. -/
def Account.zero : Account := ⟨0, 0⟩

/-- Embeds `db.First(&acct, id)` exactly as `transferFunds` uses it: the
error is discarded, so when the row is missing the out parameter keeps
its zero value. -/
def DB.firstOrZero (db : DB) (id : Nat) : Account :=
  (db.first id).getD Account.zero

/-- Embeds GORM v2 `db.Save(&acct)`: update every row matching the
primary key (a SQL `UPDATE ... WHERE id = ?`; the key is unique in a
well-formed table, so at most one row), and create the row when none
was affected. -/
def DB.save (db : DB) (a : Account) : DB :=
  if (db.first a.ID).isSome then
    db.map (fun r => if r.ID == a.ID then { r with Balance := a.Balance } else r)
  else
    db ++ [a]

/-- Error kinds for a transfer.  `transferFunds` in `main.go` only ever
builds the insufficient-funds error (`fmt.Errorf("account %s balance %d
is lower than transfer amount %d", ...)`), carried here with its three
format arguments.  `accountNotFound` is the spec's `AccountNotFound`
taxonomy entry, present so that claims about it can be stated; the
source never constructs it. -/
inductive TransferError where
  | insufficientFunds (id : Nat) (balance : Int) (amount : Int)
  | accountNotFound (id : Nat)
deriving Repr, DecidableEq

/-- The constant `transferAmt` from `main.go`. -/
def transferAmt : Int := 100

/-- Direct translation of `transferFunds(db, fromID, toID, amount)`:
read both accounts (errors of `First` discarded), fail when
`fromAccount.Balance < amount`, otherwise debit, credit and `Save` both
rows in order.  Success returns the new table state. -/
def transferFunds (db : DB) (fromID toID : Nat) (amount : Int) :
    Except TransferError DB :=
  let fromAccount := db.firstOrZero fromID
  let toAccount := db.firstOrZero toID
  if fromAccount.Balance < amount then
    .error (.insufficientFunds fromAccount.ID fromAccount.Balance amount)
  else
    let fromAccount2 : Account := { fromAccount with Balance := fromAccount.Balance - amount }
    let toAccount2 : Account := { toAccount with Balance := toAccount.Balance + amount }
    .ok ((db.save fromAccount2).save toAccount2)

/-- The committed table state after running `transferFunds` in a
transaction (`crdbgorm.ExecuteTx`): a successful unit of work commits
the new state, a terminal error rolls the transaction back, leaving the
table as it was. -/
def commitTransfer (db : DB) (fromID toID : Nat) (amount : Int) : DB :=
  match transferFunds db fromID toID amount with
  | .ok db2 => db2
  | .error _ => db

/-- Direct translation of the loop body of `insertRows(db, numRows)`.
The loop data that is external to the store — the values of `uuid.New()`
and `rand.Intn(10000)` on each iteration — is passed in as the list
`rows` of pairs `(newID, r)`; each iteration creates
`Account{ID: newID, Balance: r + transferAmt}` and appends `newID` to
the global `acctIDs`.  `db.Create` appends the row (`uuid.New`
collisions are negligible, and the program never re-seeds an id). -/
def insertRows (db : DB) (acctIDs : List Nat) (rows : List (Nat × Nat)) :
    DB × List Nat :=
  match rows with
  | [] => (db, acctIDs)
  | (newID, r) :: rest =>
      insertRows (db ++ [⟨newID, (r : Int) + transferAmt⟩]) (acctIDs ++ [newID]) rest

/-- Direct translation of `deleteAccounts(db)`:
`DELETE FROM accounts WHERE id IN acctIDs`. -/
def deleteAccounts (db : DB) (acctIDs : List Nat) : DB :=
  db.filter (fun a => !(acctIDs.contains a.ID))

/-- Sum of all balances in the table. -/
def totalBalance (db : DB) : Int :=
  (db.map Account.Balance).sum

/-- Every row of the table has a non-negative balance. -/
def NonNeg (db : DB) : Prop :=
  ∀ a ∈ db, 0 ≤ a.Balance

/-- The committed states reachable by the program's operations, together
with the `acctIDs` global: start from an empty table, seed rows with
`insertRows`, run `transferFunds` with a positive amount inside
`ExecuteTx` (success commits, a terminal error rolls back), and delete
the tracked accounts with `deleteAccounts`. -/
inductive Reachable : DB → List Nat → Prop where
  | init : Reachable [] []
  | seed (db : DB) (ids : List Nat) (rows : List (Nat × Nat)) :
      Reachable db ids →
      Reachable (insertRows db ids rows).1 (insertRows db ids rows).2
  | transfer (db : DB) (ids : List Nat) (fromID toID : Nat) (amount : Int) :
      Reachable db ids → 0 < amount →
      Reachable (commitTransfer db fromID toID amount) ids
  | delete (db : DB) (ids : List Nat) :
      Reachable db ids → Reachable (deleteAccounts db ids) ids

/-- A handle on which GORM store operations can be issued: either the
root `*gorm.DB` value or a transaction handle passed to a unit of work.
Modelled as naturals; distinct numbers stand for distinct handles. -/
abbrev Handle := Nat

/-- The unit of work `main` passes to `crdbgorm.ExecuteTx` for seeding,
`func(tx *gorm.DB) error { return insertRows(db, 5) }`, viewed as the
handle its store operations are issued on as a function of the supplied
transaction handle: the closure captures the root `db` and never uses
its `tx` argument. -/
def seedUnitHandle (db : Handle) (_tx : Handle) : Handle :=
  db

/-- The unit of work `main` passes to `crdbgorm.ExecuteTx` for the
transfer, `func(tx *gorm.DB) error { return transferFunds(tx, fromID,
toID, transferAmt) }`, viewed as the handle its store operations are
issued on: it forwards the supplied `tx`. -/
def transferUnitHandle (_db : Handle) (tx : Handle) : Handle :=
  tx

/-- Outcome of one attempt of a unit of work, as classified by the retry
executor: success, a retryable serialization conflict, or a terminal
error. -/
inductive AttemptResult where
  | ok
  | retryableConflict
  | terminal
deriving Repr, DecidableEq

/-- Outcome of a run of the retry executor, carrying the number of
attempts that were made. -/
inductive ExecOutcome where
  | committed (attempts : Nat)
  | terminalError (attempts : Nat)
  | retryExhausted (attempts : Nat)
deriving Repr, DecidableEq

/-- Modelled from the spec: the retry loop behind `crdbgorm.ExecuteTx`
lives in the cockroach-go dependency, outside this repository's source
files; the spec requires that "Retries use a bounded attempt count or a
bounded cumulative wall-clock budget ... must be finite".  The unit of
work is given by its outcome on each attempt index; `executeTx budget f
attempt` re-invokes it only on a retryable conflict, at most `budget`
more times, and stops with `retryExhausted` when the budget runs out. -/
def executeTx (budget : Nat) (f : Nat → AttemptResult) (attempt : Nat) :
    ExecOutcome :=
  match budget with
  | 0 => .retryExhausted attempt
  | b + 1 =>
    match f attempt with
    | .ok => .committed (attempt + 1)
    | .terminal => .terminalError (attempt + 1)
    | .retryableConflict => executeTx b f (attempt + 1)

/-- Number of attempts reported by an executor outcome. -/
def ExecOutcome.attempts : ExecOutcome → Nat
  | .committed n => n
  | .terminalError n => n
  | .retryExhausted n => n

-- sanity checks while developing
example :
    transferFunds [⟨1, 500⟩, ⟨2, 100⟩] 1 2 100 = .ok [⟨1, 400⟩, ⟨2, 200⟩] := rfl

example :
    transferFunds [⟨1, 50⟩] 1 2 100 = .error (.insufficientFunds 1 50 100) := rfl

example : transferFunds [⟨1, 500⟩] 1 1 100 = .ok [⟨1, 600⟩] := rfl

example :
    insertRows [] [] [(1, 400), (2, 0)] = ([⟨1, 500⟩, ⟨2, 100⟩], [1, 2]) := by
  decide

/-! ## Basic lemmas about `first` and `save` -/

theorem DB.first_id {db : DB} {i : Nat} {r : Account}
    (h : db.first i = some r) : r.ID = i := by
  have := List.find?_some h
  simpa using this

theorem DB.mem_of_first {db : DB} {i : Nat} {r : Account}
    (h : db.first i = some r) : r ∈ db :=
  List.mem_of_find?_eq_some h

theorem DB.first_map (db : DB) (g : Account → Account)
    (hg : ∀ r, (g r).ID = r.ID) (j : Nat) :
    DB.first (db.map g) j = (db.first j).map g := by
  simp only [DB.first]
  induction db with
  | nil => rfl
  | cons x rest ih =>
    rw [List.map_cons]
    by_cases hxj : x.ID = j
    · rw [List.find?_cons_of_pos _ (by simp [hg, hxj]),
        List.find?_cons_of_pos _ (by simp [hxj])]
      rw [Option.map_some']
    · rw [List.find?_cons_of_neg _ (by simp [hg, hxj]),
        List.find?_cons_of_neg _ (by simp [hxj])]
      exact ih

theorem DB.save_id_preserving (a : Account) (r : Account) :
    ((fun r => if r.ID == a.ID then { r with Balance := a.Balance } else r) r).ID
      = r.ID := by
  by_cases hri : r.ID = a.ID <;> simp [hri]

theorem DB.first_save_self (db : DB) (a : Account) :
    (db.save a).first a.ID = some ⟨a.ID, a.Balance⟩ := by
  rw [DB.save]
  by_cases h : (db.first a.ID).isSome
  · rw [if_pos h]
    obtain ⟨r, hr⟩ := Option.isSome_iff_exists.mp h
    rw [DB.first_map db _ (DB.save_id_preserving a) a.ID, hr, Option.map_some']
    have hid : r.ID = a.ID := DB.first_id hr
    simp [hid]
  · rw [if_neg h]
    rw [Option.not_isSome_iff_eq_none] at h
    rw [DB.first] at h ⊢
    rw [List.find?_append, h]
    simp [List.find?]

theorem DB.first_save_other (db : DB) (a : Account) (j : Nat)
    (hj : j ≠ a.ID) :
    (db.save a).first j = db.first j := by
  rw [DB.save]
  by_cases h : (db.first a.ID).isSome
  · rw [if_pos h]
    rw [DB.first_map db _ (DB.save_id_preserving a) j]
    cases hr : db.first j with
    | none => rfl
    | some r =>
      rw [Option.map_some']
      have hid : r.ID = j := DB.first_id hr
      have hne : ¬ (r.ID = a.ID) := by rw [hid]; exact hj
      simp [hne]
  · rw [if_neg h]
    rw [DB.first, List.find?_append]
    have hfa : List.find? (fun r => r.ID == j) [a] = none := by
      have hne : (a.ID == j) = false := by simpa using (Ne.symm hj)
      simp [List.find?, hne]
    rw [hfa, Option.or_none]
    rfl

/-! ## Shape of `transferFunds` on each branch -/

theorem transferFunds_error_eq (db : DB) (fromID toID : Nat) (amount : Int)
    (hlt : (db.firstOrZero fromID).Balance < amount) :
    transferFunds db fromID toID amount =
      Except.error (.insufficientFunds (db.firstOrZero fromID).ID
        (db.firstOrZero fromID).Balance amount) := by
  simp only [transferFunds]
  rw [if_pos hlt]

theorem transferFunds_ok_eq (db : DB) (fromID toID : Nat) (amount : Int)
    (hle : amount ≤ (db.firstOrZero fromID).Balance) :
    transferFunds db fromID toID amount =
      Except.ok ((db.save { db.firstOrZero fromID with
          Balance := (db.firstOrZero fromID).Balance - amount }).save
        { db.firstOrZero toID with
          Balance := (db.firstOrZero toID).Balance + amount }) := by
  simp only [transferFunds]
  rw [if_neg (not_lt.mpr hle)]

theorem transferFunds_moves (db : DB) (fromID toID : Nat) (amount : Int)
    (aF aT : Account)
    (hne : fromID ≠ toID)
    (hF : db.first fromID = some aF) (hT : db.first toID = some aT)
    (hle : amount ≤ aF.Balance) :
    ∃ db2, transferFunds db fromID toID amount = Except.ok db2 ∧
      db2.first fromID = some ⟨fromID, aF.Balance - amount⟩ ∧
      db2.first toID = some ⟨toID, aT.Balance + amount⟩ := by
  have hFid : aF.ID = fromID := DB.first_id hF
  have hTid : aT.ID = toID := DB.first_id hT
  have hfz : db.firstOrZero fromID = aF := by
    rw [DB.firstOrZero, hF]; rfl
  have htz : db.firstOrZero toID = aT := by
    rw [DB.firstOrZero, hT]; rfl
  refine ⟨_, transferFunds_ok_eq db fromID toID amount (by rw [hfz]; exact hle),
    ?_, ?_⟩
  · rw [hfz, htz]
    rw [DB.first_save_other _ _ _ (by simpa [hTid] using hne)]
    have h := DB.first_save_self db { aF with Balance := aF.Balance - amount }
    simpa [hFid] using h
  · rw [hfz, htz]
    have h := DB.first_save_self (db.save { aF with Balance := aF.Balance - amount })
      { aT with Balance := aT.Balance + amount }
    simpa [hTid] using h

/-! ## Claim C1 -/

/-- Claim C1: for distinct account ids whose accounts exist and an amount
at most the source balance, `transferFunds` succeeds and the committed
state has the source balance decreased by exactly `amount` and the
destination balance increased by exactly `amount`. -/
theorem transferFunds_success_exact (db : DB) (fromID toID : Nat)
    (amount : Int) (aF aT : Account)
    (hne : fromID ≠ toID)
    (hF : db.first fromID = some aF) (hT : db.first toID = some aT)
    (hle : amount ≤ aF.Balance) :
    ∃ db2, transferFunds db fromID toID amount = Except.ok db2 ∧
      db2.first fromID = some ⟨fromID, aF.Balance - amount⟩ ∧
      db2.first toID = some ⟨toID, aT.Balance + amount⟩ :=
  transferFunds_moves db fromID toID amount aF aT hne hF hT hle

/-- Witness for claim C1 at the spec scenario: A(500), B(100), transfer
of 100 gives A=400 and B=200. -/
theorem transferFunds_success_exact_witness :
    (1 : Nat) ≠ 2 ∧
    DB.first [⟨1, 500⟩, ⟨2, 100⟩] 1 = some ⟨1, 500⟩ ∧
    DB.first [⟨1, 500⟩, ⟨2, 100⟩] 2 = some ⟨2, 100⟩ ∧
    (100 : Int) ≤ 500 ∧
    ∃ db2, transferFunds [⟨1, 500⟩, ⟨2, 100⟩] 1 2 100 = Except.ok db2 ∧
      DB.first db2 1 = some ⟨1, 400⟩ ∧ DB.first db2 2 = some ⟨2, 200⟩ := by
  refine ⟨by decide, rfl, rfl, by decide, ?_⟩
  obtain ⟨db2, h1, h2, h3⟩ :=
    transferFunds_success_exact [⟨1, 500⟩, ⟨2, 100⟩] 1 2 100 ⟨1, 500⟩ ⟨2, 100⟩
      (by decide) rfl rfl (by decide)
  have e1 : (500 : Int) - 100 = 400 := by norm_num
  have e2 : (100 : Int) + 100 = 200 := by norm_num
  rw [e1] at h2
  rw [e2] at h3
  exact ⟨db2, h1, h2, h3⟩

/-! ## Claim C10 -/

/-- Claim C10: `transferFunds` never checks that the amount is positive.
Any amount, zero or negative included, with source balance at least the
amount is applied unconditionally: the source is debited and the
destination credited by the (possibly negative) amount, so a negative
amount moves funds from the destination to the source and can leave the
destination negative. -/
theorem transferFunds_accepts_nonpositive (db : DB) (fromID toID : Nat)
    (amount : Int) (aF aT : Account)
    (hne : fromID ≠ toID)
    (hF : db.first fromID = some aF) (hT : db.first toID = some aT)
    (hle : amount ≤ aF.Balance) (_hnp : amount ≤ 0) :
    ∃ db2, transferFunds db fromID toID amount = Except.ok db2 ∧
      db2.first fromID = some ⟨fromID, aF.Balance - amount⟩ ∧
      db2.first toID = some ⟨toID, aT.Balance + amount⟩ :=
  transferFunds_moves db fromID toID amount aF aT hne hF hT hle

/-- Witness for claim C10: a transfer of -100 from an account with
balance 0 to an account with balance 50 succeeds and leaves the
destination at -50, a negative committed balance. -/
theorem transferFunds_accepts_nonpositive_witness :
    (1 : Nat) ≠ 2 ∧
    DB.first [⟨1, 0⟩, ⟨2, 50⟩] 1 = some ⟨1, 0⟩ ∧
    DB.first [⟨1, 0⟩, ⟨2, 50⟩] 2 = some ⟨2, 50⟩ ∧
    (-100 : Int) ≤ 0 ∧ (-100 : Int) ≤ 0 ∧
    (∃ db2, transferFunds [⟨1, 0⟩, ⟨2, 50⟩] 1 2 (-100) = Except.ok db2 ∧
      DB.first db2 1 = some ⟨1, 100⟩ ∧ DB.first db2 2 = some ⟨2, -50⟩) ∧
    (-50 : Int) < 0 := by
  refine ⟨by decide, rfl, rfl, by decide, by decide, ?_, by decide⟩
  obtain ⟨db2, h1, h2, h3⟩ :=
    transferFunds_accepts_nonpositive [⟨1, 0⟩, ⟨2, 50⟩] 1 2 (-100) ⟨1, 0⟩ ⟨2, 50⟩
      (by decide) rfl rfl (by decide) (by decide)
  have e1 : (0 : Int) - (-100) = 100 := by norm_num
  have e2 : (50 : Int) + (-100) = -50 := by norm_num
  rw [e1] at h2
  rw [e2] at h3
  exact ⟨db2, h1, h2, h3⟩

/-! ## Claim C3 -/

/-- Claim C3: when the balance read for the source account is lower than
the amount, `transferFunds` fails with the insufficient-funds error and
the transaction commits no mutation: the table after the call is
exactly the table before it. -/
theorem transferFunds_insufficient_no_mutation (db : DB) (fromID toID : Nat)
    (amount : Int)
    (hlt : (db.firstOrZero fromID).Balance < amount) :
    transferFunds db fromID toID amount =
      Except.error (.insufficientFunds (db.firstOrZero fromID).ID
        (db.firstOrZero fromID).Balance amount) ∧
    commitTransfer db fromID toID amount = db := by
  have he := transferFunds_error_eq db fromID toID amount hlt
  exact ⟨he, by rw [commitTransfer, he]⟩

/-- Witness for claim C3 at the spec scenario: A(50), transfer of 100
fails with the insufficient-funds error and A still has 50. -/
theorem transferFunds_insufficient_no_mutation_witness :
    (DB.firstOrZero [⟨1, 50⟩] 1).Balance < 100 ∧
    transferFunds [⟨1, 50⟩] 1 2 100 =
      Except.error (.insufficientFunds (DB.firstOrZero [⟨1, 50⟩] 1).ID
        (DB.firstOrZero [⟨1, 50⟩] 1).Balance 100) ∧
    commitTransfer [⟨1, 50⟩] 1 2 100 = [⟨1, 50⟩] := by
  refine ⟨by decide, ?_, ?_⟩
  · exact (transferFunds_insufficient_no_mutation [⟨1, 50⟩] 1 2 100 (by decide)).1
  · exact (transferFunds_insufficient_no_mutation [⟨1, 50⟩] 1 2 100 (by decide)).2

/-! ## Claim C4 -/

/-- Claim C4 counterexample: a self-transfer is not a no-op.  With one
account of balance 300, transferring 50 from it to itself succeeds and
leaves it at 350, not 300: both in-memory copies are read before the
writes, so the second `Save` overwrites the debit with the credit. -/
theorem self_transfer_not_noop_cex :
    transferFunds [⟨7, 300⟩] 7 7 50 = Except.ok [⟨7, 350⟩] ∧
    DB.first [⟨7, 300⟩] 7 = some ⟨7, 300⟩ ∧
    DB.first [⟨7, 350⟩] 7 = some ⟨7, 350⟩ ∧
    (350 : Int) ≠ 300 :=
  ⟨rfl, rfl, rfl, by decide⟩

/-- Claim C4 (amended): a transfer with `fromId == toId == a` whose
account exists with balance at least `amount` reports success but
increases `a`'s balance by exactly `amount` (the credited copy is saved
last and wins); every other account is unchanged. -/
theorem self_transfer_adds_amount (db : DB) (a : Nat) (amount : Int)
    (acct : Account)
    (hA : db.first a = some acct) (hle : amount ≤ acct.Balance) :
    ∃ db2, transferFunds db a a amount = Except.ok db2 ∧
      db2.first a = some ⟨a, acct.Balance + amount⟩ ∧
      ∀ j, j ≠ a → db2.first j = db.first j := by
  have hid : acct.ID = a := DB.first_id hA
  have hfz : db.firstOrZero a = acct := by
    rw [DB.firstOrZero, hA]; rfl
  refine ⟨_, transferFunds_ok_eq db a a amount (by rw [hfz]; exact hle),
    ?_, ?_⟩
  · rw [hfz]
    have h := DB.first_save_self (db.save { acct with Balance := acct.Balance - amount })
      { acct with Balance := acct.Balance + amount }
    simpa [hid] using h
  · intro j hj
    rw [hfz]
    rw [DB.first_save_other _ _ _ (by simpa [hid] using hj),
      DB.first_save_other _ _ _ (by simpa [hid] using hj)]

/-- Witness for the amended claim C4. -/
theorem self_transfer_adds_amount_witness :
    DB.first [⟨7, 300⟩, ⟨8, 40⟩] 7 = some ⟨7, 300⟩ ∧ (50 : Int) ≤ 300 ∧
    ∃ db2, transferFunds [⟨7, 300⟩, ⟨8, 40⟩] 7 7 50 = Except.ok db2 ∧
      DB.first db2 7 = some ⟨7, 350⟩ ∧
      ∀ j, j ≠ 7 → DB.first db2 j = DB.first [⟨7, 300⟩, ⟨8, 40⟩] j := by
  refine ⟨rfl, by decide, ?_⟩
  obtain ⟨db2, h1, h2, h3⟩ :=
    self_transfer_adds_amount [⟨7, 300⟩, ⟨8, 40⟩] 7 50 ⟨7, 300⟩ rfl (by decide)
  have e : (300 : Int) + 50 = 350 := by norm_num
  rw [e] at h2
  exact ⟨db2, h1, h2, h3⟩

/-! ## Claim C6 -/

/-- Claim C6 counterexample: with the source account missing from the
table, the transfer does not fail with `AccountNotFound` — the error of
`First` is discarded, the source keeps its zero value, and the call
fails with the insufficient-funds error built from the zero account. -/
theorem transferFunds_missing_source_cex :
    DB.first [⟨2, 500⟩] 1 = none ∧
    transferFunds [⟨2, 500⟩] 1 2 100 =
      Except.error (.insufficientFunds 0 0 100) ∧
    TransferError.insufficientFunds 0 0 100 ≠ TransferError.accountNotFound 1 ∧
    TransferError.insufficientFunds 0 0 100 ≠ TransferError.accountNotFound 2 :=
  ⟨rfl, rfl, by decide, by decide⟩

/-- Claim C6 (amended): when the source account does not exist and the
amount is positive, `transferFunds` fails with the insufficient-funds
error for the zero-valued account (id 0, balance 0) — never with an
account-not-found error — and the transaction commits no mutation. -/
theorem transferFunds_missing_source (db : DB) (fromID toID : Nat)
    (amount : Int)
    (hF : db.first fromID = none) (hpos : 0 < amount) :
    transferFunds db fromID toID amount =
      Except.error (.insufficientFunds 0 0 amount) ∧
    commitTransfer db fromID toID amount = db ∧
    ∀ i, transferFunds db fromID toID amount ≠
      Except.error (.accountNotFound i) := by
  have hfz : db.firstOrZero fromID = Account.zero := by
    rw [DB.firstOrZero, hF]; rfl
  have hlt : (db.firstOrZero fromID).Balance < amount := by
    rw [hfz]; exact hpos
  have he := transferFunds_error_eq db fromID toID amount hlt
  rw [hfz] at he
  have he2 : transferFunds db fromID toID amount =
      Except.error (.insufficientFunds 0 0 amount) := by
    simpa [Account.zero] using he
  refine ⟨he2, by rw [commitTransfer, he2], ?_⟩
  intro i h2
  rw [he2] at h2
  simp at h2

/-- Witness for the amended claim C6. -/
theorem transferFunds_missing_source_witness :
    DB.first [⟨2, 500⟩] 1 = none ∧ (0 : Int) < 100 ∧
    transferFunds [⟨2, 500⟩] 1 2 100 =
      Except.error (.insufficientFunds 0 0 100) ∧
    commitTransfer [⟨2, 500⟩] 1 2 100 = [⟨2, 500⟩] ∧
    ∀ i, transferFunds [⟨2, 500⟩] 1 2 100 ≠
      Except.error (.accountNotFound i) := by
  obtain ⟨h1, h2, h3⟩ :=
    transferFunds_missing_source [⟨2, 500⟩] 1 2 100 rfl (by decide)
  exact ⟨rfl, by decide, h1, h2, h3⟩

/-! ## Claim C2: conservation of the total balance -/

theorem totalBalance_cons (x : Account) (rest : DB) :
    totalBalance (x :: rest) = x.Balance + totalBalance rest := by
  simp [totalBalance]

theorem totalBalance_map_update (db : DB) (i : Nat) (b : Int) (r : Account)
    (hr : db.first i = some r) (hnd : (db.map Account.ID).Nodup) :
    totalBalance (db.map (fun y => if y.ID == i then { y with Balance := b } else y))
      = totalBalance db - r.Balance + b := by
  induction db with
  | nil => simp [DB.first, List.find?] at hr
  | cons x rest ih =>
    rw [List.map_cons, List.nodup_cons] at hnd
    by_cases hx : x.ID = i
    · have hrx : r = x := by
        rw [DB.first, List.find?_cons_of_pos _ (by simp [hx])] at hr
        exact (Option.some_inj.mp hr).symm
      have hrest :
          rest.map (fun y => if y.ID == i then { y with Balance := b } else y)
            = rest := by
        apply List.map_congr_left ?_ |>.trans (List.map_id rest)
        intro y hy
        have hyne : ¬ (y.ID = i) := by
          intro hyi
          exact hnd.1 (hx ▸ hyi ▸ List.mem_map_of_mem Account.ID hy)
        simp [hyne]
      rw [List.map_cons, hrest]
      rw [totalBalance_cons, totalBalance_cons, hrx]
      have hhead :
          (if x.ID == i then { x with Balance := b } else x) = { x with Balance := b } := by
        simp [hx]
      rw [hhead]
      show b + totalBalance rest = x.Balance + totalBalance rest - x.Balance + b
      ring
    · have hr2 : DB.first rest i = some r := by
        rw [DB.first, List.find?_cons_of_neg _ (by simp [hx])] at hr
        exact hr
      have hhead :
          (if x.ID == i then { x with Balance := b } else x) = x := by
        simp [hx]
      rw [List.map_cons, hhead, totalBalance_cons, totalBalance_cons,
        ih hr2 hnd.2]
      ring

theorem totalBalance_save (db : DB) (a r : Account)
    (hr : db.first a.ID = some r) (hnd : (db.map Account.ID).Nodup) :
    totalBalance (db.save a) = totalBalance db - r.Balance + a.Balance := by
  rw [DB.save, if_pos (by rw [hr]; rfl)]
  exact totalBalance_map_update db a.ID a.Balance r hr hnd

theorem map_ID_save (db : DB) (a : Account)
    (h : (db.first a.ID).isSome) :
    (db.save a).map Account.ID = db.map Account.ID := by
  rw [DB.save, if_pos h, List.map_map]
  apply List.map_congr_left
  intro y _
  exact DB.save_id_preserving a y

/-- Claim C2 counterexample: a self-transfer is a successful transfer on
which the sum of the affected balances — and the total of the table —
is not conserved: one account of 500, self-transfer of 100, commits a
state whose only balance is 600. -/
theorem transfer_conservation_cex :
    transferFunds [⟨1, 500⟩] 1 1 100 = Except.ok [⟨1, 600⟩] ∧
    DB.first [⟨1, 500⟩] 1 = some ⟨1, 500⟩ ∧
    DB.first [⟨1, 600⟩] 1 = some ⟨1, 600⟩ ∧
    totalBalance [⟨1, 500⟩] = 500 ∧
    totalBalance [⟨1, 600⟩] = 600 ∧
    (500 : Int) + 500 ≠ 600 + 600 ∧
    (500 : Int) ≠ 600 :=
  ⟨rfl, rfl, rfl, by decide, by decide, by decide, by decide⟩

/-- Claim C2 (amended): for every successful transfer between two
distinct existing accounts (ids unique in the table), the sum of the two
affected balances is unchanged and the total of all balances is
conserved. -/
theorem transfer_conservation (db : DB) (fromID toID : Nat) (amount : Int)
    (aF aT : Account)
    (hne : fromID ≠ toID)
    (hF : db.first fromID = some aF) (hT : db.first toID = some aT)
    (hnd : (db.map Account.ID).Nodup)
    (hle : amount ≤ aF.Balance) :
    ∃ db2 aF2 aT2, transferFunds db fromID toID amount = Except.ok db2 ∧
      db2.first fromID = some aF2 ∧ db2.first toID = some aT2 ∧
      aF2.Balance + aT2.Balance = aF.Balance + aT.Balance ∧
      totalBalance db2 = totalBalance db := by
  obtain ⟨db2, h1, h2, h3⟩ :=
    transferFunds_moves db fromID toID amount aF aT hne hF hT hle
  refine ⟨db2, _, _, h1, h2, h3, by ring, ?_⟩
  have hFid : aF.ID = fromID := DB.first_id hF
  have hTid : aT.ID = toID := DB.first_id hT
  have hfz : db.firstOrZero fromID = aF := by
    rw [DB.firstOrZero, hF]; rfl
  have htz : db.firstOrZero toID = aT := by
    rw [DB.firstOrZero, hT]; rfl
  have hdb2 : db2 = (db.save { aF with Balance := aF.Balance - amount }).save
      { aT with Balance := aT.Balance + amount } := by
    have := transferFunds_ok_eq db fromID toID amount (by rw [hfz]; exact hle)
    rw [hfz, htz] at this
    rw [this] at h1
    exact (Except.ok.inj h1).symm
  have hsome : (db.first aF.ID).isSome := by
    rw [hFid, hF]; rfl
  have hstep1 : totalBalance (db.save { aF with Balance := aF.Balance - amount })
      = totalBalance db - aF.Balance + (aF.Balance - amount) := by
    apply totalBalance_save db { aF with Balance := aF.Balance - amount } aF ?_ hnd
    show db.first aF.ID = some aF
    rw [hFid]
    exact hF
  have hmid : DB.first (db.save { aF with Balance := aF.Balance - amount }) aT.ID
      = some aT := by
    rw [DB.first_save_other _ _ _ (by simp [hFid, hTid]; exact Ne.symm hne)]
    rw [hTid]
    exact hT
  have hndmid : ((db.save { aF with Balance := aF.Balance - amount }).map
      Account.ID).Nodup := by
    rw [map_ID_save db _ (by show (db.first aF.ID).isSome = true; exact hsome)]
    exact hnd
  have hstep2 := totalBalance_save (db.save { aF with Balance := aF.Balance - amount })
    { aT with Balance := aT.Balance + amount } aT (by exact hmid) hndmid
  rw [hdb2, hstep2, hstep1]
  dsimp only
  ring

/-- Witness for the amended claim C2. -/
theorem transfer_conservation_witness :
    (1 : Nat) ≠ 2 ∧
    DB.first [⟨1, 500⟩, ⟨2, 100⟩] 1 = some ⟨1, 500⟩ ∧
    DB.first [⟨1, 500⟩, ⟨2, 100⟩] 2 = some ⟨2, 100⟩ ∧
    (([⟨1, 500⟩, ⟨2, 100⟩] : DB).map Account.ID).Nodup ∧
    (100 : Int) ≤ 500 ∧
    ∃ db2 aF2 aT2,
      transferFunds [⟨1, 500⟩, ⟨2, 100⟩] 1 2 100 = Except.ok db2 ∧
      DB.first db2 1 = some aF2 ∧ DB.first db2 2 = some aT2 ∧
      aF2.Balance + aT2.Balance = 500 + 100 ∧
      totalBalance db2 = totalBalance [⟨1, 500⟩, ⟨2, 100⟩] := by
  refine ⟨by decide, rfl, rfl, by decide, by decide, ?_⟩
  exact transfer_conservation [⟨1, 500⟩, ⟨2, 100⟩] 1 2 100 ⟨1, 500⟩ ⟨2, 100⟩
    (by decide) rfl rfl (by decide) (by decide)

/-! ## Claim C5: no committed state has a negative balance -/

theorem nonneg_insertRows (db : DB) (ids : List Nat) (rows : List (Nat × Nat))
    (h : NonNeg db) : NonNeg (insertRows db ids rows).1 := by
  induction rows generalizing db ids with
  | nil => exact h
  | cons p rest ih =>
    cases p with
    | mk newID r =>
      rw [insertRows]
      apply ih
      intro a ha
      rcases List.mem_append.mp ha with hmem | hmem
      · exact h a hmem
      · have ha2 : a = ⟨newID, (r : Int) + transferAmt⟩ := by simpa using hmem
        rw [ha2]
        show (0 : Int) ≤ (r : Int) + transferAmt
        rw [transferAmt]
        omega

theorem nonneg_save (db : DB) (a : Account) (h : NonNeg db)
    (ha : 0 ≤ a.Balance) : NonNeg (db.save a) := by
  intro y hy
  rw [DB.save] at hy
  by_cases hs : (db.first a.ID).isSome
  · rw [if_pos hs] at hy
    obtain ⟨x, hx, hgx⟩ := List.mem_map.mp hy
    by_cases hxi : x.ID = a.ID
    · rw [← hgx]
      simpa [hxi] using ha
    · rw [← hgx]
      simpa [hxi] using h x hx
  · rw [if_neg hs] at hy
    rcases List.mem_append.mp hy with hmem | hmem
    · exact h y hmem
    · have hy2 : y = a := by simpa using hmem
      rw [hy2]
      exact ha

theorem firstOrZero_nonneg (db : DB) (i : Nat) (h : NonNeg db) :
    0 ≤ (db.firstOrZero i).Balance := by
  rw [DB.firstOrZero]
  cases hr : db.first i with
  | none => simp [Account.zero]
  | some r =>
    rw [Option.getD_some]
    exact h r (DB.mem_of_first hr)

theorem nonneg_commitTransfer (db : DB) (f t : Nat) (amount : Int)
    (h : NonNeg db) (hpos : 0 < amount) :
    NonNeg (commitTransfer db f t amount) := by
  rw [commitTransfer]
  by_cases hlt : (db.firstOrZero f).Balance < amount
  · rw [transferFunds_error_eq db f t amount hlt]
    exact h
  · rw [transferFunds_ok_eq db f t amount (not_lt.mp hlt)]
    apply nonneg_save
    · apply nonneg_save db _ h
      dsimp only
      have h2 := not_lt.mp hlt
      omega
    · dsimp only
      have h3 := firstOrZero_nonneg db t h
      omega

/-- Claim C5: every committed state reachable by the program's
operations — seeding via `insertRows`, transfers via `transferFunds`
with a positive amount run under `ExecuteTx`, deletion via
`deleteAccounts` — has only non-negative balances. -/
theorem reachable_balances_nonneg (db : DB) (ids : List Nat)
    (h : Reachable db ids) : NonNeg db := by
  induction h with
  | init =>
    intro a ha
    cases ha
  | seed d i rows _ ih => exact nonneg_insertRows d i rows ih
  | transfer d i f t amount _ hpos ih =>
    exact nonneg_commitTransfer d f t amount ih hpos
  | delete d i _ ih =>
    intro a ha
    exact ih a (List.mem_of_mem_filter ha)

/-- Witness for claim C5: the state reached by seeding two accounts with
balances 500 and 100 and then transferring 100 between them is
non-negative. -/
theorem reachable_balances_nonneg_witness :
    NonNeg [⟨1, 400⟩, ⟨2, 200⟩] := by
  have h0 : Reachable [] [] := Reachable.init
  have h1 := Reachable.seed [] [] [(1, 400), (2, 0)] h0
  have e1 : (insertRows [] [] [(1, 400), (2, 0)]).1 = [⟨1, 500⟩, ⟨2, 100⟩] := rfl
  have e2 : (insertRows [] [] [(1, 400), (2, 0)]).2 = [1, 2] := rfl
  rw [e1, e2] at h1
  have h2 := Reachable.transfer [⟨1, 500⟩, ⟨2, 100⟩] [1, 2] 1 2 100 h1 (by decide)
  have e3 : commitTransfer [⟨1, 500⟩, ⟨2, 100⟩] 1 2 100 = [⟨1, 400⟩, ⟨2, 200⟩] := rfl
  rw [e3] at h2
  exact reachable_balances_nonneg _ _ h2

/-! ## Claim C7 -/

/-- Claim C7 is refuted by the seeding unit of work: `main` wraps
`insertRows` in `crdbgorm.ExecuteTx` but the closure calls
`insertRows(db, 5)` on the captured root handle, ignoring the supplied
`tx`, so its inserts do not participate in the retry transaction; the
transfer unit of work does forward the supplied `tx` to
`transferFunds`.  Evaluated at the failing input db = 0, tx = 1. -/
theorem seedUnit_ignores_tx :
    (∀ db tx : Handle, seedUnitHandle db tx = db) ∧
    (∀ db tx : Handle, transferUnitHandle db tx = tx) ∧
    seedUnitHandle 0 1 = 0 ∧ (0 : Handle) ≠ 1 :=
  ⟨fun _ _ => rfl, fun _ _ => rfl, rfl, by decide⟩

/-! ## Claim C8 -/

theorem executeTx_attempts_le (budget : Nat) (f : Nat → AttemptResult)
    (attempt : Nat) :
    (executeTx budget f attempt).attempts ≤ attempt + budget := by
  induction budget generalizing attempt with
  | zero => simp [executeTx, ExecOutcome.attempts]
  | succ b ih =>
    rw [executeTx]
    cases hf : f attempt with
    | ok =>
      show ExecOutcome.attempts (.committed (attempt + 1)) ≤ attempt + (b + 1)
      rw [ExecOutcome.attempts]
      omega
    | terminal =>
      show ExecOutcome.attempts (.terminalError (attempt + 1)) ≤ attempt + (b + 1)
      rw [ExecOutcome.attempts]
      omega
    | retryableConflict =>
      have h := ih (attempt + 1)
      show (executeTx b f (attempt + 1)).attempts ≤ attempt + (b + 1)
      omega

theorem executeTx_conflict_run (budget : Nat) (f : Nat → AttemptResult)
    (hf : ∀ n, f n = .retryableConflict) (attempt : Nat) :
    executeTx budget f attempt = .retryExhausted (attempt + budget) := by
  induction budget generalizing attempt with
  | zero => simp [executeTx]
  | succ b ih =>
    rw [executeTx, hf attempt]
    show executeTx b f (attempt + 1) = .retryExhausted (attempt + (b + 1))
    rw [ih (attempt + 1)]
    congr 1
    omega

/-- Claim C8 (modelled from the spec, since the retry loop of
`crdbgorm.ExecuteTx` is in the cockroach-go dependency rather than in
this repository's sources): a run of the retry executor makes at most
`budget` attempts for any unit of work, and a unit of work that returns
a retryable conflict on every attempt makes the executor stop after
exactly `budget` attempts and return retry exhaustion instead of
looping forever. -/
theorem executeTx_bounded (budget : Nat) (f g : Nat → AttemptResult)
    (hg : ∀ n, g n = .retryableConflict) :
    (executeTx budget f 0).attempts ≤ budget ∧
    executeTx budget g 0 = .retryExhausted budget := by
  constructor
  · have h := executeTx_attempts_le budget f 0
    simpa using h
  · have h := executeTx_conflict_run budget g hg 0
    simpa using h

/-- Witness for claim C8 with budget 3, a unit of work that commits at
once and one that always conflicts. -/
theorem executeTx_bounded_witness :
    (∀ n : Nat, (fun _ : Nat => AttemptResult.retryableConflict) n
      = AttemptResult.retryableConflict) ∧
    (executeTx 3 (fun _ => AttemptResult.ok) 0).attempts ≤ 3 ∧
    executeTx 3 (fun _ => AttemptResult.retryableConflict) 0
      = .retryExhausted 3 := by
  refine ⟨fun _ => rfl, ?_⟩
  exact executeTx_bounded 3 (fun _ => AttemptResult.ok)
    (fun _ => AttemptResult.retryableConflict) (fun _ => rfl)

/-! ## Claim C9 -/

theorem insertRows_eq (db : DB) (ids : List Nat) (rows : List (Nat × Nat)) :
    insertRows db ids rows =
      (db ++ rows.map (fun p => ⟨p.1, (p.2 : Int) + transferAmt⟩),
       ids ++ rows.map Prod.fst) := by
  induction rows generalizing db ids with
  | nil => simp [insertRows]
  | cons p rest ih =>
    cases p with
    | mk newID r =>
      rw [insertRows, ih]
      simp

/-- Claim C9: seeding appends exactly one account per row, each with
balance `rand.Intn(10000) + transferAmt`, so every freshly created
account has a balance of at least `transferAmt` (100) and at most
`transferAmt + 9999` — in particular strictly positive and sufficient
to fund one transfer of `transferAmt`; and each created id is appended
to `acctIDs`, one entry per created row. -/
theorem insertRows_bounds (db : DB) (ids : List Nat)
    (rows : List (Nat × Nat))
    (hrand : ∀ p ∈ rows, p.2 < 10000) :
    (insertRows db ids rows).1
        = db ++ rows.map (fun p => ⟨p.1, (p.2 : Int) + transferAmt⟩) ∧
    (insertRows db ids rows).2 = ids ++ rows.map Prod.fst ∧
    ((insertRows db ids rows).2).length = ids.length + rows.length ∧
    ∀ a ∈ rows.map (fun p => (⟨p.1, (p.2 : Int) + transferAmt⟩ : Account)),
      transferAmt ≤ a.Balance ∧ a.Balance ≤ transferAmt + 9999 ∧
        0 < a.Balance := by
  have he := insertRows_eq db ids rows
  refine ⟨by rw [he], by rw [he], ?_, ?_⟩
  · rw [he]
    simp
  · intro a ha
    obtain ⟨p, hp, hpa⟩ := List.mem_map.mp ha
    rw [← hpa]
    dsimp only
    have hb := hrand p hp
    rw [transferAmt]
    refine ⟨by omega, by omega, by omega⟩

/-- Witness for claim C9 with two seeded rows, using the extreme random
values 9999 and 0. -/
theorem insertRows_bounds_witness :
    (∀ p ∈ [((1 : Nat), (9999 : Nat)), (2, 0)], p.2 < 10000) ∧
    (insertRows [] [] [(1, 9999), (2, 0)]).1 = [⟨1, 10099⟩, ⟨2, 100⟩] ∧
    (insertRows [] [] [(1, 9999), (2, 0)]).2 = [1, 2] ∧
    ((insertRows [] [] [(1, 9999), (2, 0)]).2).length = 2 ∧
    ∀ a ∈ [((1 : Nat), (9999 : Nat)), (2, 0)].map
        (fun p => (⟨p.1, (p.2 : Int) + transferAmt⟩ : Account)),
      transferAmt ≤ a.Balance ∧ a.Balance ≤ transferAmt + 9999 ∧
        0 < a.Balance := by
  obtain ⟨h1, h2, h3, h4⟩ := insertRows_bounds [] [] [(1, 9999), (2, 0)]
    (by decide)
  refine ⟨by decide, ?_, ?_, ?_, h4⟩
  · rw [h1]
    decide
  · rw [h2]
    decide
  · rw [h3]
    decide
